import Mathlib

/-!
Shallow embedding of the cart and product services of a small e-commerce
backend (NestJS + TypeORM).  The stateful services are modelled as pure
functions over an explicit `CartState`: TypeORM repositories become lists,
`repository.findOne` becomes `List.find?`, `repository.save` of a found
entity becomes an update-by-primary-key map, `repository.remove` a filter
by primary key, appending models an insert, and a thrown
`NotFoundException` becomes `Except.error (.notFound msg)`.
-/

/-- Error raised by the services; `NotFoundException msg` in the source. -/
inductive ServiceError where
  | notFound (msg : String)
  deriving DecidableEq, Repr

/-- Product entity: id (uuid primary key), name, price, description, stock,
and the soft-delete flag `isActive` (default true). -/
structure Product where
  id : String
  name : String
  price : Int
  description : String
  stock : Int
  isActive : Bool
  deriving DecidableEq, Repr

/-- User entity as far as the cart service consumes it (only `id` is read;
email and name are carried for fidelity). -/
structure User where
  id : String
  email : String
  name : String
  deriving DecidableEq, Repr

/-- CartItem entity: generated primary key, foreign keys to the owning user
and the referenced product, and a quantity column. -/
structure CartItem where
  id : Nat
  userId : String
  productId : String
  quantity : Int
  deriving DecidableEq, Repr

/-- The backing store: the product table, the cart-item table, and a counter
supplying fresh generated primary keys for cart items. -/
structure CartState where
  products : List Product
  items : List CartItem
  nextItemId : Nat
  deriving DecidableEq, Repr

/-- The `where: { user: { id: user.id }, product: { id: productId } }` lookup
condition used by every cart operation. -/
def isCartItemFor (uid pid : String) (it : CartItem) : Bool :=
  it.userId == uid && it.productId == pid

namespace CartService

/-- `CartService.addToCart`: look up the line item for (user, productId);
if found, increment its quantity and save; otherwise look up the product
(throwing `NotFoundException` when absent) and insert a fresh line item. -/
def addToCart (s : CartState) (u : User) (productId : String) (quantity : Int) :
    Except ServiceError (CartItem × CartState) :=
  match s.items.find? (isCartItemFor u.id productId) with
  | some cartItem =>
      let updated : CartItem := { cartItem with quantity := cartItem.quantity + quantity }
      .ok (updated,
        { s with items := s.items.map fun j => if j.id == cartItem.id then updated else j })
  | none =>
      match s.products.find? (fun p => p.id == productId) with
      | none => .error (.notFound "Product not found")
      | some _ =>
          let cartItem : CartItem :=
            { id := s.nextItemId, userId := u.id, productId := productId, quantity := quantity }
          .ok (cartItem, { s with items := s.items ++ [cartItem], nextItemId := s.nextItemId + 1 })

/-- `CartService.removeFromCart`: look up the line item for (user, productId);
throw `NotFoundException` when absent, otherwise delete it by primary key. -/
def removeFromCart (s : CartState) (u : User) (productId : String) :
    Except ServiceError CartState :=
  match s.items.find? (isCartItemFor u.id productId) with
  | none => .error (.notFound "Cart item not found")
  | some cartItem =>
      .ok { s with items := s.items.filter fun j => !(j.id == cartItem.id) }

/-- `CartService.getCart`: return the user's line items with the `product`
relation resolved; a pure read, so the state component is returned as is. -/
def getCart (s : CartState) (u : User) :
    (List (CartItem × Option Product)) × CartState :=
  ((s.items.filter fun it => it.userId == u.id).map
      (fun it => (it, s.products.find? fun p => p.id == it.productId)),
    s)

/-- `CartService.updateQuantity`: look up the line item for (user, productId);
throw `NotFoundException` when absent, otherwise overwrite its quantity. -/
def updateQuantity (s : CartState) (u : User) (productId : String) (quantity : Int) :
    Except ServiceError (CartItem × CartState) :=
  match s.items.find? (isCartItemFor u.id productId) with
  | none => .error (.notFound "Cart item not found")
  | some cartItem =>
      let updated : CartItem := { cartItem with quantity := quantity }
      .ok (updated,
        { s with items := s.items.map fun j => if j.id == cartItem.id then updated else j })

end CartService

/-- Fields of `CreateProductDto`. -/
structure CreateProductDto where
  name : String
  price : Int
  description : String
  stock : Int
  deriving DecidableEq, Repr

/-- Modelled from the spec: the file `update-product.dto.ts` is imported but
absent from the sources; the spec's interface table gives `PUT /products/:id`
a body of "partial fields", so the dto carries optional product fields that
overwrite the stored record where present. -/
structure UpdateProductDto where
  name : Option String := none
  price : Option Int := none
  description : Option String := none
  stock : Option Int := none
  deriving DecidableEq, Repr

/-- Effect of `repository.update(id, dto)` on a single matching row. -/
def applyUpdateDto (p : Product) (dto : UpdateProductDto) : Product :=
  { p with
    name := dto.name.getD p.name
    price := dto.price.getD p.price
    description := dto.description.getD p.description
    stock := dto.stock.getD p.stock }

namespace ProductService

/-- `ProductService.findAll`: list the products with `isActive: true`. -/
def findAll (s : CartState) : List Product :=
  s.products.filter fun p => p.isActive

/-- `ProductService.findOne`: look up an *active* product by id, throwing
`NotFoundException` when no active product has that id. -/
def findOne (s : CartState) (id : String) : Except ServiceError Product :=
  match s.products.find? (fun p => p.id == id && p.isActive) with
  | none => .error (.notFound ("Product with ID \"" ++ id ++ "\" not found"))
  | some p => .ok p

/-- `ProductService.create`: insert a new product (active by default); the
generated uuid primary key is supplied as an argument. -/
def create (s : CartState) (dto : CreateProductDto) (newId : String) :
    Product × CartState :=
  let p : Product := { id := newId, name := dto.name, price := dto.price,
                       description := dto.description, stock := dto.stock, isActive := true }
  (p, { s with products := s.products ++ [p] })

/-- `ProductService.update`: resolve through the active-only `findOne`, apply
`repository.update(id, dto)`, then re-read through `findOne`. -/
def update (s : CartState) (id : String) (dto : UpdateProductDto) :
    Except ServiceError (Product × CartState) :=
  match findOne s id with
  | .error e => .error e
  | .ok _ =>
      let s' : CartState :=
        { s with products := s.products.map fun p => if p.id == id then applyUpdateDto p dto else p }
      match findOne s' id with
      | .error e => .error e
      | .ok p => .ok (p, s')

/-- `ProductService.remove` (soft delete): resolve through the active-only
`findOne`, then set `isActive: false` via `repository.update`. -/
def remove (s : CartState) (id : String) : Except ServiceError CartState :=
  match findOne s id with
  | .error e => .error e
  | .ok _ =>
      .ok { s with products := s.products.map fun p =>
              if p.id == id then { p with isActive := false } else p }

/-- `ProductService.hardRemove`: look the product up by id regardless of the
`isActive` flag, throwing `NotFoundException` when absent, then erase it. -/
def hardRemove (s : CartState) (id : String) : Except ServiceError CartState :=
  match s.products.find? (fun p => p.id == id) with
  | none => .error (.notFound ("Product with ID \"" ++ id ++ "\" not found"))
  | some product =>
      .ok { s with products := s.products.filter fun q => !(q.id == product.id) }

end ProductService

/-- One sequentially executed cart operation. -/
inductive CartOp where
  | add (u : User) (productId : String) (quantity : Int)
  | setQuantity (u : User) (productId : String) (quantity : Int)
  | del (u : User) (productId : String)
  deriving Repr

/-- Execute one cart operation; a thrown `NotFoundException` aborts the
request and leaves the store untouched. -/
def applyCartOp (s : CartState) (op : CartOp) : CartState :=
  match op with
  | .add u pid q =>
      match CartService.addToCart s u pid q with
      | .ok (_, s') => s'
      | .error _ => s
  | .setQuantity u pid q =>
      match CartService.updateQuantity s u pid q with
      | .ok (_, s') => s'
      | .error _ => s
  | .del u pid =>
      match CartService.removeFromCart s u pid with
      | .ok s' => s'
      | .error _ => s

/-- Execute a sequence of cart operations left to right. -/
def runCartOps (s : CartState) (ops : List CartOp) : CartState :=
  ops.foldl applyCartOp s

/-- No two line items share a (user, product) key. -/
def ItemKeysUnique (items : List CartItem) : Prop :=
  items.Pairwise fun a b => ¬(a.userId = b.userId ∧ a.productId = b.productId)

/-- No two line items share a primary key. -/
def ItemIdsUnique (items : List CartItem) : Prop :=
  items.Pairwise fun a b => a.id ≠ b.id

/-- Store invariant: item primary keys are fresh and unique, and there is at
most one line item per (user, product) pair. -/
def CartInv (s : CartState) : Prop :=
  (∀ it ∈ s.items, it.id < s.nextItemId) ∧ ItemIdsUnique s.items ∧ ItemKeysUnique s.items

/-- At most one line item per (user, product) pair, phrased as a filter. -/
def atMostOnePerPair (items : List CartItem) : Prop :=
  ∀ uid pid, (items.filter (isCartItemFor uid pid)).length ≤ 1

/-- Two members of a pairwise list that fail the relation in both directions
must be the same element. -/
theorem pairwise_eq_of_not_rel {α : Type} {R : α → α → Prop} {l : List α} (h : l.Pairwise R)
    {x y : α} (hx : x ∈ l) (hy : y ∈ l) (hxy : ¬ R x y) (hyx : ¬ R y x) : x = y := by
  induction l with
  | nil => cases hx
  | cons a t ih =>
      rcases List.pairwise_cons.mp h with ⟨ha, ht⟩
      rcases List.mem_cons.mp hx with rfl | hx2
      · rcases List.mem_cons.mp hy with rfl | hy2
        · rfl
        · exact absurd (ha y hy2) hxy
      · rcases List.mem_cons.mp hy with rfl | hy2
        · exact absurd (ha x hx2) hyx
        · exact ih ht hx2 hy2

/-- With unique primary keys, equal ids identify equal items. -/
theorem eq_of_mem_of_id_eq {items : List CartItem} (hnd : ItemIdsUnique items)
    {x y : CartItem} (hx : x ∈ items) (hy : y ∈ items) (hid : x.id = y.id) : x = y :=
  pairwise_eq_of_not_rel hnd hx hy (not_not_intro hid) (not_not_intro hid.symm)

/-- With unique (user, product) keys, equal keys identify equal items. -/
theorem eq_of_mem_of_key_eq {items : List CartItem} (hkeys : ItemKeysUnique items)
    {x y : CartItem} (hx : x ∈ items) (hy : y ∈ items)
    (hu : x.userId = y.userId) (hp : x.productId = y.productId) : x = y :=
  pairwise_eq_of_not_rel hkeys hx hy (not_not_intro ⟨hu, hp⟩) (not_not_intro ⟨hu.symm, hp.symm⟩)

/-- Concrete fixtures used by the witness theorems. -/
def demoUser : User := ⟨"u1", "u1@mail", "U One"⟩

def demoProduct : Product := ⟨"p1", "prod", 5, "desc", 10, true⟩

def demoItem : CartItem := ⟨0, "u1", "p1", 2⟩

def demoState : CartState := ⟨[demoProduct], [demoItem], 1⟩

/-- Claim C3: addToCart on a productId that resolves to no product, with no
pre-existing line item for (user, productId), fails with NotFound, and the
line-item store is unchanged (no line item created or modified). -/
theorem addToCart_missing_product_fails (s : CartState) (u : User) (pid : String) (q : Int)
    (hno : s.items.find? (isCartItemFor u.id pid) = none)
    (hprod : ∀ p ∈ s.products, p.id ≠ pid) :
    CartService.addToCart s u pid q = .error (.notFound "Product not found") ∧
    applyCartOp s (CartOp.add u pid q) = s := by
  have hfind : s.products.find? (fun p => p.id == pid) = none := by
    rw [List.find?_eq_none]
    intro p hp
    simpa using hprod p hp
  have h1 : CartService.addToCart s u pid q = .error (.notFound "Product not found") := by
    unfold CartService.addToCart
    rw [hno, hfind]
  exact ⟨h1, by simp only [applyCartOp, h1]⟩

/-- Claim C3 witness at a concrete state. -/
theorem addToCart_missing_product_fails_witness :
    CartService.addToCart demoState demoUser "ghost" 3
        = .error (.notFound "Product not found") ∧
    applyCartOp demoState (CartOp.add demoUser "ghost" 3) = demoState :=
  addToCart_missing_product_fails demoState demoUser "ghost" 3 (by decide) (by decide)

/-- Claim C7: catalog soft delete and hard delete leave the cart line items
untouched; every line item present before is present with the same quantity
afterwards (line items die only by explicit removeFromCart). -/
theorem catalog_delete_preserves_cart_items (s : CartState) (id : String) :
    (∀ s', ProductService.remove s id = .ok s' → s'.items = s.items) ∧
    (∀ s', ProductService.hardRemove s id = .ok s' → s'.items = s.items) := by
  constructor
  · intro s' h
    unfold ProductService.remove at h
    cases hf : ProductService.findOne s id with
    | error e => rw [hf] at h; exact Except.noConfusion h
    | ok p =>
        rw [hf] at h
        simp only [Except.ok.injEq] at h
        subst h
        rfl
  · intro s' h
    unfold ProductService.hardRemove at h
    cases hf : s.products.find? (fun p => p.id == id) with
    | none => rw [hf] at h; exact Except.noConfusion h
    | some p =>
        rw [hf] at h
        simp only [Except.ok.injEq] at h
        subst h
        rfl

/-- Claim C7 witness: soft-deleting the referenced product keeps the line item. -/
theorem catalog_delete_preserves_cart_items_witness :
    ({ products := [{ demoProduct with isActive := false }],
       items := [demoItem], nextItemId := 1 } : CartState).items = demoState.items :=
  (catalog_delete_preserves_cart_items demoState "p1").1 _ rfl

/-- Claim C9: getCart returns exactly the line items owned by the user, each
with its product resolved from the catalog, it has no side effect on the
store, and for a user with no line items it returns the empty collection. -/
theorem getCart_returns_owned_items (s : CartState) (u : User) :
    (CartService.getCart s u).2 = s ∧
    (∀ r ∈ (CartService.getCart s u).1,
        r.1 ∈ s.items ∧ r.1.userId = u.id ∧
        r.2 = s.products.find? fun p => p.id == r.1.productId) ∧
    (∀ it ∈ s.items, it.userId = u.id →
        (it, s.products.find? fun p => p.id == it.productId) ∈ (CartService.getCart s u).1) ∧
    ((∀ it ∈ s.items, it.userId ≠ u.id) → (CartService.getCart s u).1 = []) := by
  refine ⟨rfl, ?_, ?_, ?_⟩
  · intro r hr
    unfold CartService.getCart at hr
    simp only [List.mem_map, List.mem_filter] at hr
    obtain ⟨x, ⟨hx, hux⟩, rfl⟩ := hr
    exact ⟨hx, by simpa using hux, rfl⟩
  · intro it hit hu
    unfold CartService.getCart
    simp only [List.mem_map, List.mem_filter]
    exact ⟨it, ⟨hit, by simpa using hu⟩, rfl⟩
  · intro h
    have hf : (s.items.filter fun it => it.userId == u.id) = [] := by
      rw [List.filter_eq_nil_iff]
      intro a ha
      simpa using h a ha
    unfold CartService.getCart
    rw [hf]
    rfl

/-- Claim C9 witness: concrete cart retrieval for a user with one line item
and for a user with none. -/
theorem getCart_returns_owned_items_witness :
    (CartService.getCart demoState ⟨"nobody", "n@mail", "N"⟩).1 = [] ∧
    (demoItem, some demoProduct) ∈ (CartService.getCart demoState demoUser).1 :=
  ⟨(getCart_returns_owned_items demoState ⟨"nobody", "n@mail", "N"⟩).2.2.2 (by decide),
   (getCart_returns_owned_items demoState demoUser).2.2.1 demoItem (by decide) (by decide)⟩

/-- A state whose line-item table references a product that is absent from
the product table (for instance after a hard delete of the product). -/
def orphanState : CartState := ⟨[], [⟨0, "u1", "p1", 1⟩], 1⟩

/-- Claim C2 counterexample: with a line item for (user, productId) already
present and an invalid product reference (empty catalog), addToCart does not
fail with NotFound — it succeeds and increments the quantity, because the
line-item store is read before the catalog is ever consulted. -/
theorem addToCart_existing_item_skips_catalog_cex :
    CartService.addToCart orphanState demoUser "p1" 2
        = .ok (⟨0, "u1", "p1", 3⟩, ⟨[], [⟨0, "u1", "p1", 3⟩], 1⟩) ∧
    CartService.addToCart orphanState demoUser "p1" 2
        ≠ .error (.notFound "Product not found") :=
  ⟨rfl, fun h => Except.noConfusion h⟩

/-- Claim C2 amended: addToCart reads its own line-item store first and
consults the Product Catalog only when no line item for (user, productId)
exists; in that case it fails with NotFound when the product reference is
invalid, but when a line item already exists it succeeds — incrementing that
item's quantity — regardless of whether the product reference is valid. -/
theorem addToCart_validates_catalog_only_for_new_items
    (s : CartState) (u : User) (pid : String) (q : Int) :
    (∀ it, s.items.find? (isCartItemFor u.id pid) = some it →
        (CartService.addToCart s u pid q).toOption.map (fun r => (r.1.id, r.1.quantity))
          = some (it.id, it.quantity + q)) ∧
    (s.items.find? (isCartItemFor u.id pid) = none →
        (∀ p ∈ s.products, p.id ≠ pid) →
        CartService.addToCart s u pid q = .error (.notFound "Product not found")) := by
  constructor
  · intro it hfound
    unfold CartService.addToCart
    rw [hfound]
    rfl
  · intro hno hprod
    have hfind : s.products.find? (fun p => p.id == pid) = none := by
      rw [List.find?_eq_none]
      intro p hp
      simpa using hprod p hp
    unfold CartService.addToCart
    rw [hno, hfind]

/-- Claim C2 amended witness: both branches at concrete states. -/
theorem addToCart_validates_catalog_only_for_new_items_witness :
    (CartService.addToCart orphanState demoUser "p1" 2).toOption.map
        (fun r => (r.1.id, r.1.quantity)) = some (0, 3) ∧
    CartService.addToCart demoState demoUser "ghost" 1
        = .error (.notFound "Product not found") :=
  ⟨by simpa using
      (addToCart_validates_catalog_only_for_new_items orphanState demoUser "p1" 2).1
        ⟨0, "u1", "p1", 1⟩ rfl,
   (addToCart_validates_catalog_only_for_new_items demoState demoUser "ghost" 1).2
      rfl (by decide)⟩

/-- Claim C5: updateQuantity on an existing line item overwrites its quantity
with exactly the new value (replacing, not adding), leaving every other line
item as it was; on a missing line item it fails with NotFound and leaves the
store unchanged. -/
theorem updateQuantity_overwrites (s : CartState) (u : User) (pid : String) (q' : Int) :
    (∀ it, s.items.find? (isCartItemFor u.id pid) = some it →
        ItemIdsUnique s.items →
        ∃ s', CartService.updateQuantity s u pid q'
                = .ok ({ it with quantity := q' }, s') ∧
          s'.items = s.items.map fun j => if j = it then { it with quantity := q' } else j) ∧
    (s.items.find? (isCartItemFor u.id pid) = none →
        CartService.updateQuantity s u pid q' = .error (.notFound "Cart item not found") ∧
        applyCartOp s (CartOp.setQuantity u pid q') = s) := by
  constructor
  · intro it hfound hids
    have hmem : it ∈ s.items := List.mem_of_find?_eq_some hfound
    refine ⟨{ s with items := s.items.map fun j =>
        if j.id == it.id then { it with quantity := q' } else j }, ?_, ?_⟩
    · unfold CartService.updateQuantity
      rw [hfound]
    · show List.map _ s.items = _
      apply List.map_congr_left
      intro j hj
      by_cases h : j.id = it.id
      · have hje : j = it := eq_of_mem_of_id_eq hids hj hmem h
        simp [h, hje]
      · have hne : j ≠ it := fun hje => h (by rw [hje])
        simp [h, hne]
  · intro hno
    have h1 : CartService.updateQuantity s u pid q'
        = .error (.notFound "Cart item not found") := by
      unfold CartService.updateQuantity
      rw [hno]
    exact ⟨h1, by simp only [applyCartOp, h1]⟩

/-- Claim C5 witness: overwriting the demo item's quantity to 7, and a
NotFound on a user with no line item. -/
theorem updateQuantity_overwrites_witness :
    (CartService.updateQuantity demoState demoUser "p1" 7).toOption.map (fun r => r.1)
        = some ⟨0, "u1", "p1", 7⟩ ∧
    CartService.updateQuantity demoState ⟨"nobody", "n@mail", "N"⟩ "p1" 7
        = .error (.notFound "Cart item not found") := by
  constructor
  · obtain ⟨s', h, -⟩ :=
      (updateQuantity_overwrites demoState demoUser "p1" 7).1 demoItem rfl
        (by unfold ItemIdsUnique; decide)
    rw [h]
    rfl
  · exact ((updateQuantity_overwrites demoState ⟨"nobody", "n@mail", "N"⟩ "p1" 7).2 rfl).1

/-- Claim C6: removeFromCart fails with NotFound (store untouched) when no
line item for (user, productId) exists; otherwise it deletes that line item,
after which no line item for the pair remains, while every other line item
survives and nothing new appears. -/
theorem removeFromCart_deletes_line_item (s : CartState) (u : User) (pid : String)
    (hids : ItemIdsUnique s.items) (hkeys : ItemKeysUnique s.items) :
    (s.items.find? (isCartItemFor u.id pid) = none →
        CartService.removeFromCart s u pid = .error (.notFound "Cart item not found") ∧
        applyCartOp s (CartOp.del u pid) = s) ∧
    (∀ it, s.items.find? (isCartItemFor u.id pid) = some it →
        ∃ s', CartService.removeFromCart s u pid = .ok s' ∧
          it ∉ s'.items ∧
          (∀ j ∈ s'.items, ¬(j.userId = u.id ∧ j.productId = pid)) ∧
          (∀ j ∈ s.items, j ≠ it → j ∈ s'.items) ∧
          (∀ j ∈ s'.items, j ∈ s.items)) := by
  constructor
  · intro hno
    have h1 : CartService.removeFromCart s u pid
        = .error (.notFound "Cart item not found") := by
      unfold CartService.removeFromCart
      rw [hno]
    exact ⟨h1, by simp only [applyCartOp, h1]⟩
  · intro it hfound
    have hmem : it ∈ s.items := List.mem_of_find?_eq_some hfound
    have hkey : it.userId = u.id ∧ it.productId = pid := by
      have := List.find?_some hfound
      unfold isCartItemFor at this
      simpa using this
    refine ⟨{ s with items := s.items.filter fun j => !(j.id == it.id) }, ?_, ?_, ?_, ?_, ?_⟩
    · unfold CartService.removeFromCart
      rw [hfound]
    · show it ∉ List.filter _ s.items
      intro hin
      have := (List.mem_filter.mp hin).2
      simp at this
    · intro j hj hpair
      have hj' := List.mem_filter.mp hj
      have hne : j.id ≠ it.id := by simpa using hj'.2
      have : j = it := eq_of_mem_of_key_eq hkeys hj'.1 hmem
        (hpair.1.trans hkey.1.symm) (hpair.2.trans hkey.2.symm)
      exact hne (by rw [this])
    · intro j hj hne
      refine List.mem_filter.mpr ⟨hj, ?_⟩
      have : j.id ≠ it.id := fun h => hne (eq_of_mem_of_id_eq hids hj hmem h)
      simpa using this
    · intro j hj
      exact (List.mem_filter.mp hj).1

/-- Claim C6 witness: deleting the demo line item empties the cart, and a
second delete on the emptied state fails with NotFound. -/
theorem removeFromCart_deletes_line_item_witness :
    (CartService.removeFromCart demoState demoUser "p1").toOption.map
        (fun s' => decide (demoItem ∈ s'.items)) = some false ∧
    CartService.removeFromCart ⟨[demoProduct], [], 1⟩ demoUser "p1"
        = .error (.notFound "Cart item not found") := by
  constructor
  · obtain ⟨s', h, hnotin, -⟩ :=
      (removeFromCart_deletes_line_item demoState demoUser "p1"
        (by unfold ItemIdsUnique; decide) (by unfold ItemKeysUnique; decide)).2 demoItem rfl
    rw [h]
    show some (decide (demoItem ∈ s'.items)) = some false
    simp [hnotin]
  · exact ((removeFromCart_deletes_line_item ⟨[demoProduct], [], 1⟩ demoUser "p1"
      (by unfold ItemIdsUnique; decide) (by unfold ItemKeysUnique; decide)).1 rfl).1

/-- With unique product primary keys, equal ids identify equal products. -/
theorem product_eq_of_mem_of_id_eq {ps : List Product}
    (hnd : ps.Pairwise fun a b => a.id ≠ b.id)
    {x y : Product} (hx : x ∈ ps) (hy : y ∈ ps) (h : x.id = y.id) : x = y :=
  pairwise_eq_of_not_rel hnd hx hy (not_not_intro h) (not_not_intro h.symm)

/-- The active-only lookup fails on a soft-deleted product. -/
theorem findOne_eq_error_of_inactive {s : CartState} {pr : Product}
    (hnd : s.products.Pairwise fun a b => a.id ≠ b.id)
    (hmem : pr ∈ s.products) (hina : pr.isActive = false) :
    ProductService.findOne s pr.id
      = .error (.notFound ("Product with ID \"" ++ pr.id ++ "\" not found")) := by
  have hfind : s.products.find? (fun p => p.id == pr.id && p.isActive) = none := by
    rw [List.find?_eq_none]
    intro q hq
    by_cases hid : q.id = pr.id
    · have : q = pr := product_eq_of_mem_of_id_eq hnd hq hmem hid
      subst this
      simp [hina]
    · simp [hid]
  unfold ProductService.findOne
  rw [hfind]

/-- The active-only lookup resolves an active product to itself. -/
theorem findOne_eq_ok_of_active {s : CartState} {pr : Product}
    (hnd : s.products.Pairwise fun a b => a.id ≠ b.id)
    (hmem : pr ∈ s.products) (hact : pr.isActive = true) :
    ProductService.findOne s pr.id = .ok pr := by
  cases hf : s.products.find? (fun p => p.id == pr.id && p.isActive) with
  | none =>
      exfalso
      have := List.find?_eq_none.mp hf pr hmem
      simp [hact] at this
  | some x =>
      have hpred := List.find?_some hf
      have hxmem := List.mem_of_find?_eq_some hf
      have hxid : x.id = pr.id := by
        have := (Bool.and_eq_true _ _).mp hpred
        simpa using this.1
      have : x = pr := product_eq_of_mem_of_id_eq hnd hxmem hmem hxid
      subst this
      unfold ProductService.findOne
      rw [hf]

/-- Claim C8: a soft-deleted product is excluded from findAll, findOne on its
id fails with NotFound, yet hardRemove still resolves the record by id and
erases it (and only it). -/
theorem soft_deleted_hidden_but_hard_removable (s : CartState) (pr : Product)
    (hnd : s.products.Pairwise fun a b => a.id ≠ b.id)
    (hmem : pr ∈ s.products) (hina : pr.isActive = false) :
    pr ∉ ProductService.findAll s ∧
    ProductService.findOne s pr.id
        = .error (.notFound ("Product with ID \"" ++ pr.id ++ "\" not found")) ∧
    ∃ s', ProductService.hardRemove s pr.id = .ok s' ∧
      pr ∉ s'.products ∧
      (∀ q ∈ s.products, q ≠ pr → q ∈ s'.products) ∧
      (∀ q ∈ s'.products, q ∈ s.products) := by
  refine ⟨?_, findOne_eq_error_of_inactive hnd hmem hina, ?_⟩
  · intro hin
    have := (List.mem_filter.mp hin).2
    rw [hina] at this
    cases this
  · have hfind : ∃ x, s.products.find? (fun p => p.id == pr.id) = some x := by
      rw [← Option.isSome_iff_exists, List.find?_isSome]
      exact ⟨pr, hmem, by simp⟩
    obtain ⟨x, hx⟩ := hfind
    have hxid : x.id = pr.id := by simpa using List.find?_some hx
    have hxpr : x = pr :=
      product_eq_of_mem_of_id_eq hnd (List.mem_of_find?_eq_some hx) hmem hxid
    subst hxpr
    refine ⟨{ s with products := s.products.filter fun q => !(q.id == x.id) }, ?_, ?_, ?_, ?_⟩
    · unfold ProductService.hardRemove
      rw [hx]
    · intro hin
      have := (List.mem_filter.mp hin).2
      simp at this
    · intro q hq hne
      refine List.mem_filter.mpr ⟨hq, ?_⟩
      have : q.id ≠ x.id := fun h => hne (product_eq_of_mem_of_id_eq hnd hq hmem h)
      simpa using this
    · intro q hq
      exact (List.mem_filter.mp hq).1

/-- A catalog state holding one soft-deleted product. -/
def inactiveState : CartState := ⟨[⟨"p2", "gone", 1, "d", 1, false⟩], [], 0⟩

/-- Claim C8 witness: the soft-deleted demo product is invisible to findOne
but hardRemove erases it, leaving an empty catalog. -/
theorem soft_deleted_hidden_but_hard_removable_witness :
    ProductService.findOne inactiveState "p2"
        = .error (.notFound "Product with ID \"p2\" not found") ∧
    (ProductService.hardRemove inactiveState "p2").toOption.map
        (fun s' => s'.products) = some [] := by
  have h := soft_deleted_hidden_but_hard_removable inactiveState
    ⟨"p2", "gone", 1, "d", 1, false⟩ (by decide) (by decide) rfl
  refine ⟨h.2.1, ?_⟩
  obtain ⟨s', hrm, hnot, -, hsub⟩ := h.2.2
  have hempty : s'.products = [] := by
    rw [List.eq_nil_iff_forall_not_mem]
    intro q hq
    have hq2 : q = ⟨"p2", "gone", 1, "d", 1, false⟩ := by
      simpa [inactiveState] using hsub q hq
    subst hq2
    exact hnot hq
  rw [hrm]
  show some s'.products = some []
  rw [hempty]

/-- Claim C10: because update and remove resolve through the active-only
findOne, both fail with NotFound on a soft-deleted product (leaving the
record unchanged), and soft delete is not idempotent: after a successful
remove, a second remove of the same product fails with NotFound. -/
theorem inactive_product_update_and_remove_fail (s : CartState) (dto : UpdateProductDto)
    (pr : Product) (hnd : s.products.Pairwise fun a b => a.id ≠ b.id)
    (hmem : pr ∈ s.products) :
    (pr.isActive = false →
        ProductService.update s pr.id dto
            = .error (.notFound ("Product with ID \"" ++ pr.id ++ "\" not found")) ∧
        ProductService.remove s pr.id
            = .error (.notFound ("Product with ID \"" ++ pr.id ++ "\" not found"))) ∧
    (pr.isActive = true →
        ∀ s', ProductService.remove s pr.id = .ok s' →
          ProductService.remove s' pr.id
              = .error (.notFound ("Product with ID \"" ++ pr.id ++ "\" not found"))) := by
  constructor
  · intro hina
    have herr := findOne_eq_error_of_inactive hnd hmem hina
    constructor
    · unfold ProductService.update
      rw [herr]
    · unfold ProductService.remove
      rw [herr]
  · intro hact s' hrm
    have hok := findOne_eq_ok_of_active hnd hmem hact
    unfold ProductService.remove at hrm
    rw [hok] at hrm
    simp only [Except.ok.injEq] at hrm
    subst hrm
    have hfind : (s.products.map fun p =>
        if p.id == pr.id then { p with isActive := false } else p).find?
          (fun p => p.id == pr.id && p.isActive) = none := by
      rw [List.find?_eq_none]
      intro q hq
      obtain ⟨p, hp, rfl⟩ := List.mem_map.mp hq
      by_cases hid : p.id = pr.id
      · simp [hid]
      · simp [hid]
    show ProductService.remove _ pr.id = _
    unfold ProductService.remove ProductService.findOne
    rw [hfind]

/-- Claim C10 witness: update and remove fail on the soft-deleted product,
and removing the active demo product twice fails the second time. -/
theorem inactive_product_update_and_remove_fail_witness :
    ProductService.update inactiveState "p2" {}
        = .error (.notFound "Product with ID \"p2\" not found") ∧
    ProductService.remove inactiveState "p2"
        = .error (.notFound "Product with ID \"p2\" not found") ∧
    ProductService.remove
        ({ products := [{ demoProduct with isActive := false }],
           items := [demoItem], nextItemId := 1 } : CartState) "p1"
        = .error (.notFound "Product with ID \"p1\" not found") := by
  have h1 := (inactive_product_update_and_remove_fail inactiveState {}
    ⟨"p2", "gone", 1, "d", 1, false⟩ (by decide) (by decide)).1 rfl
  have h2 := (inactive_product_update_and_remove_fail demoState {} demoProduct
    (by decide) (by decide)).2 rfl
    ({ products := [{ demoProduct with isActive := false }],
       items := [demoItem], nextItemId := 1 } : CartState) rfl
  exact ⟨h1.1, h1.2, h2⟩

/-- Claim C1: from a state with no line item for (user, productId) and an
existing product, addToCart with q1 and then q2 yields exactly one line item
for the pair, whose quantity is q1+q2; in general, adding d onto an existing
line item leaves that same line item (same primary key) with its quantity
increased by d. -/
theorem addToCart_merges_duplicate_adds (s : CartState) (u : User) (pid : String)
    (q1 q2 d : Int) (hq1 : 1 ≤ q1) (hq2 : 1 ≤ q2)
    (hno : s.items.find? (isCartItemFor u.id pid) = none)
    (hprod : ∃ p ∈ s.products, p.id = pid)
    (hfresh : ∀ it ∈ s.items, it.id < s.nextItemId) :
    (∃ it1 s1 it2 s2,
        CartService.addToCart s u pid q1 = .ok (it1, s1) ∧
        CartService.addToCart s1 u pid q2 = .ok (it2, s2) ∧
        s2.items.filter (isCartItemFor u.id pid) = [it2] ∧
        it2.quantity = q1 + q2) ∧
    (∀ t : CartState, ∀ it, t.items.find? (isCartItemFor u.id pid) = some it →
        ∃ s', CartService.addToCart t u pid d
                = .ok ({ it with quantity := it.quantity + d }, s') ∧
          { it with quantity := it.quantity + d } ∈ s'.items) := by
  constructor
  · obtain ⟨p, hp, hpid⟩ := hprod
    have hpfind : ∃ x, s.products.find? (fun q => q.id == pid) = some x := by
      rw [← Option.isSome_iff_exists, List.find?_isSome]
      exact ⟨p, hp, by simp [hpid]⟩
    obtain ⟨x, hx⟩ := hpfind
    have h1 : CartService.addToCart s u pid q1
        = .ok ((⟨s.nextItemId, u.id, pid, q1⟩ : CartItem),
               { s with items := s.items ++ [(⟨s.nextItemId, u.id, pid, q1⟩ : CartItem)],
                        nextItemId := s.nextItemId + 1 }) := by
      unfold CartService.addToCart
      rw [hno, hx]
    have hpred : isCartItemFor u.id pid (⟨s.nextItemId, u.id, pid, q1⟩ : CartItem) = true := by
      simp [isCartItemFor]
    have hfind2 : (s.items ++ [(⟨s.nextItemId, u.id, pid, q1⟩ : CartItem)]).find?
          (isCartItemFor u.id pid)
        = some (⟨s.nextItemId, u.id, pid, q1⟩ : CartItem) := by
      rw [List.find?_append, hno, Option.none_or]
      exact List.find?_cons_of_pos _ hpred
    have h2 : CartService.addToCart
          { s with items := s.items ++ [(⟨s.nextItemId, u.id, pid, q1⟩ : CartItem)],
                   nextItemId := s.nextItemId + 1 } u pid q2
        = .ok ((⟨s.nextItemId, u.id, pid, q1 + q2⟩ : CartItem),
               { s with
                 items := (s.items ++ [(⟨s.nextItemId, u.id, pid, q1⟩ : CartItem)]).map
                   fun j : CartItem =>
                     if j.id == s.nextItemId
                     then (⟨s.nextItemId, u.id, pid, q1 + q2⟩ : CartItem) else j,
                 nextItemId := s.nextItemId + 1 }) := by
      unfold CartService.addToCart
      rw [hfind2]
    have hmapold : ∀ j ∈ s.items,
        (if j.id == s.nextItemId
         then (⟨s.nextItemId, u.id, pid, q1 + q2⟩ : CartItem) else j) = j := by
      intro j hj
      have : j.id ≠ s.nextItemId := Nat.ne_of_lt (hfresh j hj)
      simp [this]
    have hmaps : ((s.items ++ [(⟨s.nextItemId, u.id, pid, q1⟩ : CartItem)]).map
          fun j : CartItem =>
            if j.id == s.nextItemId
            then (⟨s.nextItemId, u.id, pid, q1 + q2⟩ : CartItem) else j)
        = s.items ++ [(⟨s.nextItemId, u.id, pid, q1 + q2⟩ : CartItem)] := by
      rw [List.map_append]
      congr 1
      · have := List.map_congr_left hmapold
        simpa using this
      · simp
    have hfilter : (s.items ++ [(⟨s.nextItemId, u.id, pid, q1 + q2⟩ : CartItem)]).filter
          (isCartItemFor u.id pid) = [(⟨s.nextItemId, u.id, pid, q1 + q2⟩ : CartItem)] := by
      rw [List.filter_append]
      have hnil : s.items.filter (isCartItemFor u.id pid) = [] := by
        rw [List.filter_eq_nil_iff]
        exact List.find?_eq_none.mp hno
      rw [hnil]
      simp [isCartItemFor]
    refine ⟨(⟨s.nextItemId, u.id, pid, q1⟩ : CartItem), _,
            (⟨s.nextItemId, u.id, pid, q1 + q2⟩ : CartItem), _, h1, h2, ?_, rfl⟩
    show ((s.items ++ [(⟨s.nextItemId, u.id, pid, q1⟩ : CartItem)]).map
        fun j : CartItem =>
          if j.id == s.nextItemId
          then (⟨s.nextItemId, u.id, pid, q1 + q2⟩ : CartItem) else j).filter
        (isCartItemFor u.id pid) = _
    rw [hmaps, hfilter]
  · intro t it hfound
    refine ⟨{ t with items := t.items.map fun j : CartItem =>
        if j.id == it.id then { it with quantity := it.quantity + d } else j }, ?_, ?_⟩
    · unfold CartService.addToCart
      rw [hfound]
    · have hmem : it ∈ t.items := List.mem_of_find?_eq_some hfound
      have h3 := List.mem_map_of_mem
        (fun j : CartItem => if j.id == it.id then { it with quantity := it.quantity + d } else j)
        hmem
      simpa using h3

/-- Claim C1 witness: adding the demo product with quantity 2 and then 3
leaves exactly one line item for the pair, with quantity 5. -/
theorem addToCart_merges_duplicate_adds_witness :
    ((runCartOps ⟨[demoProduct], [], 0⟩
        [CartOp.add demoUser "p1" 2, CartOp.add demoUser "p1" 3]).items.filter
      (isCartItemFor demoUser.id "p1")).map (fun it => it.quantity) = [5] := by
  obtain ⟨it1, s1, it2, s2, h1, h2, hf, hq⟩ :=
    (addToCart_merges_duplicate_adds ⟨[demoProduct], [], 0⟩ demoUser "p1" 2 3 1
      (by decide) (by decide) rfl ⟨demoProduct, by decide, rfl⟩ (by simp)).1
  have e1 : CartService.addToCart ⟨[demoProduct], [], 0⟩ demoUser "p1" 2
      = .ok ((⟨0, "u1", "p1", 2⟩ : CartItem),
             (⟨[demoProduct], [⟨0, "u1", "p1", 2⟩], 1⟩ : CartState)) := rfl
  have e1' := h1.symm.trans e1
  simp only [Except.ok.injEq, Prod.mk.injEq] at e1'
  obtain ⟨-, hs1⟩ := e1'
  subst hs1
  have e2 : CartService.addToCart (⟨[demoProduct], [⟨0, "u1", "p1", 2⟩], 1⟩ : CartState)
        demoUser "p1" 3
      = .ok ((⟨0, "u1", "p1", 5⟩ : CartItem),
             (⟨[demoProduct], [⟨0, "u1", "p1", 5⟩], 1⟩ : CartState)) := rfl
  have e2' := h2.symm.trans e2
  simp only [Except.ok.injEq, Prod.mk.injEq] at e2'
  obtain ⟨-, hs2⟩ := e2'
  subst hs2
  decide

/-- Overwriting one line item in place, keyed by primary key and preserving
its key fields, preserves the store invariant. -/
theorem cartInv_replaceById {s : CartState} (h : CartInv s) {it it' : CartItem}
    (hmem : it ∈ s.items) (hid : it'.id = it.id) (huid : it'.userId = it.userId)
    (hpid : it'.productId = it.productId) :
    CartInv { s with items := s.items.map fun j : CartItem =>
        if j.id == it.id then it' else j } := by
  obtain ⟨hbound, hids, hkeys⟩ := h
  have hpres : ∀ j ∈ s.items,
      ((fun j : CartItem => if j.id == it.id then it' else j) j).id = j.id ∧
      ((fun j : CartItem => if j.id == it.id then it' else j) j).userId = j.userId ∧
      ((fun j : CartItem => if j.id == it.id then it' else j) j).productId = j.productId := by
    intro j hj
    by_cases hc : j.id = it.id
    · have hje : j = it := eq_of_mem_of_id_eq hids hj hmem hc
      subst hje
      simp [hid, huid, hpid]
    · simp [hc]
  refine ⟨?_, ?_, ?_⟩
  · intro x hx
    obtain ⟨j, hj, rfl⟩ := List.mem_map.mp hx
    rw [(hpres j hj).1]
    exact hbound j hj
  · unfold ItemIdsUnique
    rw [List.pairwise_map]
    refine hids.imp_of_mem ?_
    intro a b ha hb hr
    rw [(hpres a ha).1, (hpres b hb).1]
    exact hr
  · unfold ItemKeysUnique
    rw [List.pairwise_map]
    refine hkeys.imp_of_mem ?_
    intro a b ha hb hr
    rw [(hpres a ha).2.1, (hpres b hb).2.1, (hpres a ha).2.2, (hpres b hb).2.2]
    exact hr

/-- Every sequentially executed cart operation preserves the store invariant. -/
theorem cartInv_applyCartOp {s : CartState} (h : CartInv s) (op : CartOp) :
    CartInv (applyCartOp s op) := by
  cases op with
  | add u pid q =>
      simp only [applyCartOp]
      cases hf : s.items.find? (isCartItemFor u.id pid) with
      | some it =>
          have heq : CartService.addToCart s u pid q
              = .ok ({ it with quantity := it.quantity + q },
                     { s with items := s.items.map fun j : CartItem =>
                         if j.id == it.id then { it with quantity := it.quantity + q }
                         else j }) := by
            unfold CartService.addToCart
            rw [hf]
          rw [heq]
          exact cartInv_replaceById h (List.mem_of_find?_eq_some hf) rfl rfl rfl
      | none =>
          cases hp : s.products.find? (fun p => p.id == pid) with
          | none =>
              have heq : CartService.addToCart s u pid q
                  = .error (.notFound "Product not found") := by
                unfold CartService.addToCart
                rw [hf, hp]
              rw [heq]
              exact h
          | some pr =>
              have heq : CartService.addToCart s u pid q
                  = .ok ((⟨s.nextItemId, u.id, pid, q⟩ : CartItem),
                         { s with items := s.items ++ [(⟨s.nextItemId, u.id, pid, q⟩ : CartItem)],
                                  nextItemId := s.nextItemId + 1 }) := by
                unfold CartService.addToCart
                rw [hf, hp]
              rw [heq]
              obtain ⟨hbound, hids, hkeys⟩ := h
              refine ⟨?_, ?_, ?_⟩
              · intro x hx
                rcases List.mem_append.mp hx with hx | hx
                · exact Nat.lt_succ_of_lt (hbound x hx)
                · rw [List.mem_singleton.mp hx]
                  exact Nat.lt_succ_self _
              · unfold ItemIdsUnique
                rw [List.pairwise_append]
                refine ⟨hids, List.pairwise_singleton _ _, ?_⟩
                intro a ha b hb
                rw [List.mem_singleton.mp hb]
                exact Nat.ne_of_lt (hbound a ha)
              · unfold ItemKeysUnique
                rw [List.pairwise_append]
                refine ⟨hkeys, List.pairwise_singleton _ _, ?_⟩
                intro a ha b hb
                rw [List.mem_singleton.mp hb]
                rintro ⟨h1, h2⟩
                have := List.find?_eq_none.mp hf a ha
                apply this
                simp only [isCartItemFor]
                rw [h1, h2]
                simp
  | setQuantity u pid q =>
      simp only [applyCartOp]
      cases hf : s.items.find? (isCartItemFor u.id pid) with
      | some it =>
          have heq : CartService.updateQuantity s u pid q
              = .ok ({ it with quantity := q },
                     { s with items := s.items.map fun j : CartItem =>
                         if j.id == it.id then { it with quantity := q } else j }) := by
            unfold CartService.updateQuantity
            rw [hf]
          rw [heq]
          exact cartInv_replaceById h (List.mem_of_find?_eq_some hf) rfl rfl rfl
      | none =>
          have heq : CartService.updateQuantity s u pid q
              = .error (.notFound "Cart item not found") := by
            unfold CartService.updateQuantity
            rw [hf]
          rw [heq]
          exact h
  | del u pid =>
      simp only [applyCartOp]
      cases hf : s.items.find? (isCartItemFor u.id pid) with
      | some it =>
          have heq : CartService.removeFromCart s u pid
              = .ok { s with items := s.items.filter fun j : CartItem => !(j.id == it.id) } := by
            unfold CartService.removeFromCart
            rw [hf]
          rw [heq]
          obtain ⟨hbound, hids, hkeys⟩ := h
          refine ⟨?_, ?_, ?_⟩
          · intro x hx
            exact hbound x (List.mem_filter.mp hx).1
          · exact List.Pairwise.filter _ hids
          · exact List.Pairwise.filter _ hkeys
      | none =>
          have heq : CartService.removeFromCart s u pid
              = .error (.notFound "Cart item not found") := by
            unfold CartService.removeFromCart
            rw [hf]
          rw [heq]
          exact h

/-- The store invariant is preserved by any sequence of cart operations. -/
theorem cartInv_runCartOps {s : CartState} (h : CartInv s) (ops : List CartOp) :
    CartInv (runCartOps s ops) := by
  induction ops generalizing s with
  | nil => exact h
  | cons op rest ih => exact ih (cartInv_applyCartOp h op)

/-- Unique (user, product) keys give at most one line item per pair. -/
theorem atMostOne_of_keysUnique {items : List CartItem} (h : ItemKeysUnique items) :
    atMostOnePerPair items := by
  intro uid pid
  have hp : (items.filter (isCartItemFor uid pid)).Pairwise
      (fun a b => ¬(a.userId = b.userId ∧ a.productId = b.productId)) :=
    List.Pairwise.filter _ h
  cases hfl : items.filter (isCartItemFor uid pid) with
  | nil => simp
  | cons a t =>
      cases t with
      | nil => simp
      | cons b t2 =>
          exfalso
          rw [hfl] at hp
          have hR := (List.pairwise_cons.mp hp).1 b (by simp)
          have ha : isCartItemFor uid pid a = true := by
            have : a ∈ items.filter (isCartItemFor uid pid) := by rw [hfl]; simp
            exact (List.mem_filter.mp this).2
          have hb : isCartItemFor uid pid b = true := by
            have : b ∈ items.filter (isCartItemFor uid pid) := by rw [hfl]; simp
            exact (List.mem_filter.mp this).2
          simp only [isCartItemFor, Bool.and_eq_true, beq_iff_eq] at ha hb
          exact hR ⟨ha.1.trans hb.1.symm, ha.2.trans hb.2.symm⟩

/-- Claim C4: every state reachable from an empty line-item store by a
sequence of sequentially executed addToCart, updateQuantity and
removeFromCart operations has at most one line item per (user, product)
pair. -/
theorem cart_at_most_one_item_per_pair (s : CartState) (ops : List CartOp)
    (hempty : s.items = []) :
    atMostOnePerPair (runCartOps s ops).items := by
  have hinv : CartInv s := by
    refine ⟨?_, ?_, ?_⟩
    · rw [hempty]
      intro it hit
      cases hit
    · unfold ItemIdsUnique
      rw [hempty]
      exact List.Pairwise.nil
    · unfold ItemKeysUnique
      rw [hempty]
      exact List.Pairwise.nil
  exact atMostOne_of_keysUnique (cartInv_runCartOps hinv ops).2.2

/-- Claim C4 witness: a concrete operation sequence from the empty store. -/
theorem cart_at_most_one_item_per_pair_witness :
    atMostOnePerPair (runCartOps ⟨[demoProduct], [], 0⟩
      [CartOp.add demoUser "p1" 2, CartOp.add demoUser "p1" 3,
       CartOp.setQuantity demoUser "p1" 1, CartOp.del demoUser "p1"]).items :=
  cart_at_most_one_item_per_pair ⟨[demoProduct], [], 0⟩
    [CartOp.add demoUser "p1" 2, CartOp.add demoUser "p1" 3,
     CartOp.setQuantity demoUser "p1" 1, CartOp.del demoUser "p1"] rfl
